import Mathlib

/-!
Verification of the ThinkLife "Brain" workflow engine, planner, response
validator and security gate, as a shallow embedding of the Python sources
(`backend/brain/cortex/workflow_engine.py`, `backend/brain/cortex/cortex.py`,
`backend/brain/guardrails/security_manager.py`).

Python floats are modelled by exact rationals, machine timestamps by
rationals, and every external call (LLM provider, grading call, data-source
adapter, tool registry) by an explicit oracle argument, so that every
execution path of the embedded code is a total computable Lean function.
-/

namespace ThinkLife

/-! ## String helpers mirroring the Python primitives used by the source -/

/-- `str.strip()` on the left: drop leading whitespace of a char list. -/
def dropWs (cs : List Char) : List Char := cs.dropWhile Char.isWhitespace

/-- `str.strip()`: drop leading and trailing whitespace. -/
def pyStrip (cs : List Char) : List Char := (dropWs (dropWs cs).reverse).reverse

/-- `response.count(" ")`: number of space characters in the raw string. -/
def spaceCount (cs : List Char) : Nat := cs.count ' '

/-- `str.lower()` (ASCII case folding, which is all the source compares). -/
def lowerList (cs : List Char) : List Char := cs.map Char.toLower

/-- Contiguous-substring test, `needle in haystack` in Python. -/
def isSubList (needle : List Char) : List Char → Bool
  | [] => needle.isEmpty
  | c :: rest => needle.isPrefixOf (c :: rest) || isSubList needle rest

/-- Numeric value of a digit run (the `(\d+)` capture group). -/
def digitsVal (ds : List Char) : Nat :=
  ds.foldl (fun n c => 10 * n + (c.toNat - 48)) 0

/-- `str.startswith(pre)` (list-based, so that it evaluates in the kernel). -/
def strStartsWith (s pre : String) : Bool := pre.toList.isPrefixOf s.toList

/-! ## Response Validator (`_validate_response_quality`)

The secondary grading call is an external LLM invocation; its outcome is an
oracle (`GradeOutcome`).  Everything after the call — the `SCORE:` regex
parse, the min-capped weighted average, the keyword fallback — is embedded
from the source.  (The `REASONING:` extraction only feeds log/feedback text
and is not modelled.) -/

/-- Outcome of the grading phase of `_validate_response_quality`:
no provider configured, provider failed to come up, the grading call raised,
or it returned a text to parse. -/
inductive GradeOutcome where
  | noProvider : GradeOutcome
  | initFailed : GradeOutcome
  | exc (msg : String) : GradeOutcome
  | graded (text : String) : GradeOutcome
deriving DecidableEq

/-- The dict returned by `_validate_response_quality`. -/
structure VQResult where
  is_valid : Bool
  confidence : ℚ
  feedback : Option String
deriving DecidableEq

/-- `error_patterns` from `_validate_response_quality`. -/
def errorPatterns : List String :=
  ["i cannot", "i can\x27t", "i don\x27t have", "i\x27m unable",
   "as an ai", "i apologize, but", "i\x27m sorry, but"]

/-- `any(pattern in response_lower for pattern in error_patterns)`. -/
def hasRefusalPattern (response : String) : Bool :=
  errorPatterns.any (fun p => isSubList p.toList (lowerList response.toList))

/-- One attempted match of `SCORE:\s*(\d+)` anchored at the head of the list. -/
def scoreAt (cs : List Char) : Option Nat :=
  match cs with
  | 'S' :: 'C' :: 'O' :: 'R' :: 'E' :: ':' :: rest =>
      let ds := (rest.dropWhile Char.isWhitespace).takeWhile Char.isDigit
      if ds.isEmpty then none else some (digitsVal ds)
  | _ => none

/-- `re.search(r'SCORE:\s*(\d+)', text)`: first match anywhere in the text. -/
def searchScore : List Char → Option Nat
  | [] => none
  | c :: cs =>
      match scoreAt (c :: cs) with
      | some n => some n
      | none => searchScore cs

/-- `"acceptable" in text.lower() or "good" in text.lower()`. -/
def gradeKeywordOk (text : String) : Bool :=
  isSubList "acceptable".toList (lowerList text.toList) ||
    isSubList "good".toList (lowerList text.toList)

/-- `_validate_response_quality(response, user_message, state)`:
staged rule checks, then (when the rules pass) the grading call whose
outcome is `grade`. -/
def validateResponseQuality (response : String) (grade : GradeOutcome) : VQResult :=
  if (pyStrip response.toList).length < 10 then
    ⟨false, 1/10, some "Response is too short"⟩
  else if spaceCount response.toList < 3 then
    ⟨false, 1/5, some "Response lacks substance"⟩
  else if hasRefusalPattern response && decide (response.toList.length < 100) then
    ⟨false, 3/10, some "Response appears to be a refusal or error message"⟩
  else
    -- base confidence after the rule-based checks
    let base : ℚ := 1/2
    match grade with
    | .noProvider => ⟨true, base, none⟩
    | .initFailed => ⟨true, base, none⟩
    | .exc _ => ⟨true, base, none⟩
    | .graded text =>
        match searchScore text.toList with
        | some n =>
            let llmConf : ℚ := min ((n : ℚ) / 100) 1
            let final : ℚ := base * (3/10) + llmConf * (7/10)
            if (3 : ℚ)/4 ≤ final then ⟨true, final, none⟩
            else ⟨false, final, some "Confidence too low"⟩
        | none =>
            if gradeKeywordOk text then ⟨true, 3/4, none⟩
            else ⟨false, 1/2, some text⟩

/-- Spec-side reading of the staged rule checks of §4.3, with "internal
word-separators" read as separator characters of the *trimmed* text (the
claim's wording); `none` means the response passes on to grading. -/
def claimRuleConfidence (response : String) : Option ℚ :=
  if (pyStrip response.toList).length < 10 then some (1/10)
  else if spaceCount (pyStrip response.toList) < 3 then some (1/5)
  else if hasRefusalPattern response && decide (response.toList.length < 100) then some (3/10)
  else none

/-! ## Security Manager (`security_manager.py`)

`check_rate_limit` keeps, per user id, a minute window and an hour window of
timestamps.  `datetime.now()` is modelled by a rational timestamp supplied by
the caller; `timedelta(minutes=1)` is `60`, `timedelta(hours=1)` is `3600`. -/

/-- The `rate_limiting` part of the security configuration. -/
structure RateConfig where
  enabled : Bool
  maxPerMinute : Nat
  maxPerHour : Nat

/-- One per-user entry of `self.rate_limits`: `{"minute": [...], "hour": [...]}`. -/
structure RateEntry where
  minute : List ℚ
  hour : List ℚ

/-- `self.rate_limits`, with the dict's default-on-miss behaviour folded in:
an absent user id maps to the empty entry. -/
def RateState : Type := String → RateEntry

/-- `SecurityManager.check_rate_limit(user_id, user_context)`: returns the
allow/deny boolean and the updated `rate_limits` store. -/
def checkRateLimit (cfg : RateConfig) (st : RateState) (uid : String) (now : ℚ) :
    Bool × RateState :=
  if cfg.enabled = false then (true, st)
  else
    -- Clean old: keep t > now - 1 minute / t > now - 1 hour
    if cfg.maxPerMinute ≤ ((st uid).minute.filter (fun t => decide (now - 60 < t))).length then
      (false, fun u => if u = uid then
        ⟨(st uid).minute.filter (fun t => decide (now - 60 < t)),
         (st uid).hour.filter (fun t => decide (now - 3600 < t))⟩ else st u)
    else if cfg.maxPerHour ≤ ((st uid).hour.filter (fun t => decide (now - 3600 < t))).length then
      (false, fun u => if u = uid then
        ⟨(st uid).minute.filter (fun t => decide (now - 60 < t)),
         (st uid).hour.filter (fun t => decide (now - 3600 < t))⟩ else st u)
    else
      (true, fun u => if u = uid then
        ⟨(st uid).minute.filter (fun t => decide (now - 60 < t)) ++ [now],
         (st uid).hour.filter (fun t => decide (now - 3600 < t)) ++ [now]⟩ else st u)

/-- Three immediate successive calls for the same user id (same timestamp),
returning the three booleans. -/
def threeCalls (cfg : RateConfig) (st : RateState) (uid : String) (now : ℚ) :
    Bool × Bool × Bool :=
  let r1 := checkRateLimit cfg st uid now
  let r2 := checkRateLimit cfg r1.2 uid now
  let r3 := checkRateLimit cfg r2.2 uid now
  (r1.1, r2.1, r3.1)

/-! ## Planner (`cortex.py`): direct and adaptive plans

The reasoning engine and the cost/latency estimators are external calls from
the planner's point of view: the reasoning outcome is an `Except`-wrapped
`ReasoningResult` argument, the estimator pair an oracle function.  The
free-form `notes` dicts are carried as opaque strings. -/

/-- The processing policy fields the planner reads. -/
structure ProcessingSpecP where
  reasoning_threshold : ℚ

/-- The dict returned by `reasoning_engine.optimize_execution_specs`; every
key is optional because the planner reads them with `.get` (and with `[...]`
for `optimized_specs`, whose absence raises a caught `KeyError`).  The
optimized spec payload is abstract (`σ`). -/
structure ReasoningResult (σ : Type) where
  optimized_specs : Option σ
  confidence : Option ℚ
  notes : Option String
  estimated_cost : Option ℚ
  estimated_latency : Option ℚ

/-- Provenance of an `ExecutionPlan.reasoning_notes` dict, tagged by the
construction site in `cortex.py`. -/
inductive PlanNotes where
  | direct : PlanNotes
  | reasoned (notes : String) : PlanNotes
  | rejectedSuggestion (skipped : String) (suggestion : String) : PlanNotes
deriving DecidableEq

/-- `ExecutionPlan` over an abstract spec type `σ`. -/
structure ExecutionPlan (σ : Type) where
  original_specs : σ
  optimized_specs : σ
  reasoning_applied : Bool
  confidence : ℚ
  reasoning_notes : PlanNotes
  estimated_cost : ℚ
  estimated_latency : ℚ

/-- `Cortex._create_direct_plan`; `est` is the `_get_estimates` oracle
(cost, latency). -/
def createDirectPlan {σ : Type} (est : σ → ℚ × ℚ) (specs : σ) : ExecutionPlan σ :=
  { original_specs := specs
    optimized_specs := specs
    reasoning_applied := false
    confidence := 1
    reasoning_notes := .direct
    estimated_cost := (est specs).1
    estimated_latency := (est specs).2 }

/-- `Cortex._create_adaptive_plan`: `rr` is the outcome of the reasoning
call (`.error` when `optimize_execution_specs` raised).  A missing
`optimized_specs` key in the adopt branch raises `KeyError`, which the
enclosing `except` turns into the direct fallback plan. -/
def createAdaptivePlan {σ : Type} (est : σ → ℚ × ℚ) (threshold : ℚ) (specs : σ)
    (rr : Except String (ReasoningResult σ)) : ExecutionPlan σ :=
  match rr with
  | .error _ => createDirectPlan est specs
  | .ok r =>
      let confidence := r.confidence.getD 0
      if threshold ≤ confidence then
        match r.optimized_specs with
        | none => createDirectPlan est specs
        | some os =>
            { original_specs := specs
              optimized_specs := os
              reasoning_applied := true
              confidence := confidence
              reasoning_notes := .reasoned (r.notes.getD "")
              estimated_cost := r.estimated_cost.getD 0
              estimated_latency := r.estimated_latency.getD 0 }
      else
        { original_specs := specs
          optimized_specs := specs
          reasoning_applied := false
          confidence := 1
          reasoning_notes := .rejectedSuggestion "reasoning confidence below threshold"
            (r.notes.getD "")
          estimated_cost := (est specs).1
          estimated_latency := (est specs).2 }

/-! ## Workflow Engine (`workflow_engine.py`)

The state machine over `WorkflowState`.  External effects are oracles:
the LLM provider call and the quality-validation call are indexed by the
number of completed validation attempts (= the retry-iteration number), the
data-source adapter by the position in the spec's data-source list, and tool
availability by tool name.  Message assembly (`_build_messages_node`) mixes
agent metadata, session history and user context whose text content no claim
constrains; it is abstracted as the `assemble` oracle, while the node's
trace/step bookkeeping is embedded. -/

/-- `DataSourceType` (the enum's two live members). -/
inductive DataSourceType where
  | vector_db : DataSourceType
  | conversation_history : DataSourceType
deriving DecidableEq

/-- `DataSourceType.value`. -/
def DataSourceType.val : DataSourceType → String
  | .vector_db => "vector_db"
  | .conversation_history => "conversation_history"

/-- `DataSourceSpec` (the fields the engine reads). -/
structure DataSourceSpec where
  source_type : DataSourceType
  enabled : Bool
deriving DecidableEq

/-- `ToolSpec` (the fields the engine reads). -/
structure ToolSpecW where
  name : String
  enabled : Bool
deriving DecidableEq

/-- `AgentExecutionSpec` as consumed by the workflow engine. -/
structure AgentExecutionSpec where
  data_sources : List DataSourceSpec
  tools : List ToolSpecW
deriving DecidableEq

/-- A provider response dict: `{content, success, metadata}`, with the
resolved error string `metadata.get("error", "Unknown provider error")`. -/
structure ProviderResp where
  success : Bool
  content : String
  errorMsg : String
deriving DecidableEq

/-- Outcome of one `_call_provider_node` provider interaction: either some
exception escaped (missing provider, failed `initialize`, a raise inside
`generate_response`), or a response dict came back. -/
inductive ProviderOutcome where
  | exc (msg : String) : ProviderOutcome
  | resp (r : ProviderResp) : ProviderOutcome
deriving DecidableEq

/-- Outcome of the `_validate_response_quality` call as seen by
`_validate_response_node`: an exception, or a result dict (of which the node
reads `confidence` and `feedback`). -/
inductive QualityOutcome where
  | exc (msg : String) : QualityOutcome
  | ok (confidence : ℚ) (feedback : Option String) : QualityOutcome
deriving DecidableEq

/-- Outcome of processing one enabled `vector_db` entry in
`_query_data_sources_node`. -/
inductive DSOutcome where
  | exc (msg : String) : DSOutcome
  | unavailable : DSOutcome
  | initFailed : DSOutcome
  | ok (results : List String) : DSOutcome
deriving DecidableEq

/-- A record appended to `data_source_results`:
`{source, results, count}` or `{source, error}`. -/
inductive DSRecord where
  | ok (source : String) (results : List String) (count : Nat) : DSRecord
  | err (source : String) (error : String) : DSRecord
deriving DecidableEq

/-- A record appended to `tool_results`. -/
inductive ToolRecord where
  | executed (tool : String) (result : String) : ToolRecord
  | err (tool : String) (error : String) : ToolRecord
deriving DecidableEq

/-- A chat message `{role, content}`. -/
structure ChatMsg where
  role : String
  content : String
deriving DecidableEq

/-- `WorkflowState` (the TypedDict), minus the opaque request/context
payloads: `request.message` is kept as `request_message`, and `end_time` as
the boolean fact that it was stamped. -/
structure WState where
  request_message : String
  specs : AgentExecutionSpec
  data_source_results : List DSRecord
  tool_results : List ToolRecord
  messages : List ChatMsg
  llm_response : Option ProviderResp
  final_content : Option String
  errors : List String
  execution_steps : List String
  status : String
  end_time_set : Bool
  validation_attempts : Nat
  max_validation_runs : Nat
  validation_feedback : Option String
  is_validated : Bool
  confidence_score : ℚ
deriving DecidableEq

/-- The oracle bundle for one execution. -/
structure Env where
  provider : Nat → ProviderOutcome
  quality : Nat → QualityOutcome
  ds : Nat → DSOutcome
  toolAvail : String → Bool
  assemble : WState → List ChatMsg

/-- The initial `WorkflowState` built by `execute_plan`. -/
def initialWState (specs : AgentExecutionSpec) (message : String) : WState :=
  { request_message := message
    specs := specs
    data_source_results := []
    tool_results := []
    messages := []
    llm_response := none
    final_content := none
    errors := []
    execution_steps := []
    status := "running"
    end_time_set := false
    validation_attempts := 0
    max_validation_runs := 5
    validation_feedback := none
    is_validated := false
    confidence_score := 0 }

/-- `_initialize_node`. -/
def initNode (s : WState) : WState :=
  { s with execution_steps := s.execution_steps ++ ["initialize"] }

/-- Per-entry body of the `for ds_spec in specs.data_sources` loop of
`_query_data_sources_node`, folded over the list: returns the appended
result records and the appended error strings, in iteration order.  Only
`vector_db` entries have a handling branch in the source; enabled entries of
any other type fall through the `if source_name == "vector_db"` with neither
a record nor an error. -/
def runDataSources (o : Nat → DSOutcome) : Nat → List DataSourceSpec →
    List DSRecord × List String
  | _, [] => ([], [])
  | i, d :: rest =>
      let tail := runDataSources o (i + 1) rest
      if d.enabled = false then tail
      else if d.source_type.val = "vector_db" then
        match o i with
        | .exc m => (tail.1, ("DS Error: " ++ m) :: tail.2)
        | .unavailable => (.err d.source_type.val "Not available" :: tail.1, tail.2)
        | .initFailed => (.err d.source_type.val "Initialization failed" :: tail.1, tail.2)
        | .ok rs => (.ok d.source_type.val rs rs.length :: tail.1, tail.2)
      else tail

/-- `_query_data_sources_node`. -/
def queryDataSourcesNode (env : Env) (s : WState) : WState :=
  let s1 := { s with execution_steps := s.execution_steps ++ ["query_data_sources"] }
  let r := runDataSources env.ds 0 s1.specs.data_sources
  { s1 with data_source_results := r.1, errors := s1.errors ++ r.2 }

/-- Per-entry body of the `for tool in state["specs"].tools` loop of
`_execute_tools_node`. -/
def runTools (avail : String → Bool) : List ToolSpecW → List ToolRecord
  | [] => []
  | t :: rest =>
      let tail := runTools avail rest
      if t.enabled = false then tail
      else if avail t.name then .executed t.name "Tool execution placeholder" :: tail
      else .err t.name "Not available" :: tail

/-- `_execute_tools_node`. -/
def executeToolsNode (env : Env) (s : WState) : WState :=
  { s with execution_steps := s.execution_steps ++ ["execute_tools"],
           tool_results := runTools env.toolAvail s.specs.tools }

/-- `_build_messages_node`: step bookkeeping embedded, message text via the
`assemble` oracle (see the section comment). -/
def buildMessagesNode (env : Env) (s : WState) : WState :=
  let s1 := { s with execution_steps := s.execution_steps ++ ["build_messages"] }
  { s1 with messages := env.assemble s1 }

/-- `_call_provider_node`. -/
def callProviderNode (o : ProviderOutcome) (s : WState) : WState :=
  let s1 := { s with execution_steps := s.execution_steps ++ ["call_provider"] }
  match o with
  | .exc m =>
      { s1 with errors := s1.errors ++ [m],
                final_content := some ("Error calling provider: " ++ m) }
  | .resp r =>
      let s2 := { s1 with llm_response := some r }
      if r.success then { s2 with final_content := some r.content }
      else
        { s2 with errors := s2.errors ++ [r.errorMsg],
                  final_content := some ("Error: " ++ r.errorMsg) }

/-- The guard `if not response_content or response_content.startswith("Error:")`
applied to `state.get("final_content", "")`. -/
def contentFailed (c : Option String) : Bool :=
  match c with
  | none => true
  | some c => c = "" || strStartsWith c "Error:"

/-- `_validate_response_node`. -/
def validateResponseNode (q : QualityOutcome) (s : WState) : WState :=
  let s1 := { s with execution_steps := s.execution_steps ++ ["validate_response"],
                     validation_attempts := s.validation_attempts + 1 }
  if contentFailed s1.final_content then
    { s1 with validation_feedback := some "Response generation failed or returned error",
              confidence_score := 0 }
  else
    match q with
    | .exc m =>
        { s1 with errors := s1.errors ++ ["Validation error: " ++ m],
                  confidence_score := 1/2,
                  is_validated := true }
    | .ok confidence feedback =>
        let s2 := { s1 with confidence_score := confidence }
        if (3 : ℚ)/4 ≤ confidence then { s2 with is_validated := true }
        else
          { s2 with is_validated := false,
                    validation_feedback := some (feedback.getD "Confidence too low") }

/-- `_route_after_validation`: the returned boolean is `true` for the
`"finalize"` edge and `false` for `"retry"`; the state carries the
force-accept mutation of the max-attempts branch. -/
def routeAfterValidation (s : WState) : WState × Bool :=
  if s.is_validated then (s, true)
  else if s.max_validation_runs ≤ s.validation_attempts then
    ({ s with is_validated := true,
              errors := s.errors ++
                ["Response validation failed after " ++
                  toString s.validation_attempts ++ " attempts"] }, true)
  else (s, false)

/-- The four fallback messages of `_finalize_node`. -/
def fallbackMessages : List String :=
  ["I\x27m not confident I can provide an accurate answer to that question right now.",
   "I don\x27t have enough information to give you a reliable response at this time.",
   "I\x27m uncertain about the best way to answer that. Could you rephrase or provide more context?",
   "I don\x27t know enough about this topic to provide a helpful response."]

/-- `fallback_messages[0]`, the one the node actually uses. -/
def fallbackMessage0 : String :=
  "I\x27m not confident I can provide an accurate answer to that question right now."

/-- `_finalize_node`. -/
def finalizeNode (s : WState) : WState :=
  let s1 := { s with execution_steps := s.execution_steps ++ ["finalize"] }
  let s2 :=
    if s1.confidence_score < 3/4 then
      { s1 with final_content := some fallbackMessage0,
                errors := s1.errors ++ ["Low confidence response replaced with fallback"] }
    else s1
  { s2 with status := if s2.errors.isEmpty then "completed" else "completed_with_errors",
            end_time_set := true }

/-- One iteration of the agentic loop:
`build_messages` → `call_provider` → `validate_response` →
`_route_after_validation`; `true` means take the `"finalize"` edge. -/
def loopIter (env : Env) (s : WState) : WState × Bool :=
  routeAfterValidation
    (validateResponseNode
      (env.quality (callProviderNode
        (env.provider (buildMessagesNode env s).validation_attempts)
        (buildMessagesNode env s)).validation_attempts)
      (callProviderNode
        (env.provider (buildMessagesNode env s).validation_attempts)
        (buildMessagesNode env s)))

/-- The `while True` retry loop of `_execute_sequential`, with fuel (the
caller passes enough fuel; `seqLoop_reaches_finalize` below shows the
`fuel = 0` escape is never taken). -/
def seqLoop (env : Env) : Nat → WState → WState
  | 0, s => s
  | fuel + 1, s =>
      let r := loopIter env s
      if r.2 then finalizeNode r.1 else seqLoop env fuel r.1

/-- The pre-loop portion of `_execute_sequential`: note the conditional
nodes fire on *non-empty* source/tool lists (not on "any enabled entry",
unlike the graph routing). -/
def preLoopState (env : Env) (s0 : WState) : WState :=
  if (initNode s0).specs.data_sources.isEmpty then
    if (initNode s0).specs.tools.isEmpty then initNode s0
    else executeToolsNode env (initNode s0)
  else
    if (queryDataSourcesNode env (initNode s0)).specs.tools.isEmpty then
      queryDataSourcesNode env (initNode s0)
    else executeToolsNode env (queryDataSourcesNode env (initNode s0))

/-- The same retry loop stopped just before FINALIZE: returns the state on
which `_finalize_node` is about to run (used to evaluate concrete runs). -/
def seqLoopPre (env : Env) : Nat → WState → WState
  | 0, s => s
  | fuel + 1, s =>
      let r := loopIter env s
      if r.2 then r.1 else seqLoopPre env fuel r.1

/-- `_execute_sequential`. -/
def executeSequential (env : Env) (s0 : WState) : WState :=
  seqLoop env ((preLoopState env s0).max_validation_runs + 1) (preLoopState env s0)

/-- The LangGraph node names of `_build_graph`. -/
inductive GNode where
  | start : GNode
  | queryDS : GNode
  | tools : GNode
  | build : GNode
  | call : GNode
  | validate : GNode
  | fin : GNode
deriving DecidableEq

/-- `_route_after_initialize`'s first test: any enabled data source. -/
def anyEnabledDS (s : WState) : Bool := s.specs.data_sources.any (·.enabled)

/-- Any enabled tool (second test of `_route_after_initialize`, and the test
of `_route_after_data_sources`). -/
def anyEnabledTool (s : WState) : Bool := s.specs.tools.any (·.enabled)

/-- The compiled LangGraph state machine of `_build_graph`, run with fuel;
`none` signals fuel exhaustion (never reached from the entry point —
`graphRun_isSome` below). -/
def graphRun (env : Env) : Nat → GNode → WState → Option WState
  | 0, _, _ => none
  | fuel + 1, n, s =>
      match n with
      | .start =>
          let s1 := initNode s
          graphRun env fuel
            (if anyEnabledDS s1 then .queryDS
             else if anyEnabledTool s1 then .tools else .build) s1
      | .queryDS =>
          let s1 := queryDataSourcesNode env s
          graphRun env fuel (if anyEnabledTool s1 then .tools else .build) s1
      | .tools => graphRun env fuel .build (executeToolsNode env s)
      | .build => graphRun env fuel .call (buildMessagesNode env s)
      | .call =>
          graphRun env fuel .validate (callProviderNode (env.provider s.validation_attempts) s)
      | .validate =>
          let s1 := validateResponseNode (env.quality s.validation_attempts) s
          let r := routeAfterValidation s1
          graphRun env fuel (if r.2 then .fin else .build) r.1
      | .fin => some (finalizeNode s)

/-- `_execute_graph` on the compiled graph, with the (provably sufficient)
fuel budget; the `getD` branch mirrors `_execute_graph`'s exception handler
and is dead code for the initial state. -/
def executeGraph (env : Env) (s0 : WState) : WState :=
  (graphRun env (3 * s0.max_validation_runs + 10) .start s0).getD
    { s0 with status := "failed",
              errors := s0.errors ++ ["Graph error"],
              end_time_set := true }

/-- The result dict of `execute_plan`. -/
structure ExecResult where
  success : Bool
  content : String
  status : String
  confidence : ℚ
  errors : List String
  execution_steps : List String
  validation_attempts : Nat
deriving DecidableEq

/-- The content resolution in `execute_plan`: `final_content`, else the
`llm_response` content, else the placeholder. -/
def resolveFinalContent (s : WState) : String :=
  match s.final_content with
  | some c => c
  | none =>
      match s.llm_response with
      | some r => r.content
      | none => "No response generated"

/-- `llm_success` in `execute_plan`. -/
def llmSuccessOf (s : WState) : Bool :=
  match s.llm_response with
  | some r => r.success
  | none => false

/-- `has_valid_content` in `execute_plan` (truthiness of the Python
conjunction). -/
def hasValidContent (c : String) : Bool :=
  !(c = "") && !(c = "No response generated") && !(strStartsWith c "Error:")

/-- `final_state["status"] in ["completed", "completed_with_errors"]`. -/
def completedVariant (st : String) : Bool :=
  st = "completed" || st = "completed_with_errors"

/-- `is_successful` in `execute_plan` (source lines 186-191). -/
def successCheck (s : WState) (content : String) : Bool :=
  (llmSuccessOf s && hasValidContent content) ||
    (hasValidContent content && completedVariant s.status)

/-- The success formula the spec sentence describes: provider success AND
valid content AND completed status. -/
def successClaimed (s : WState) (content : String) : Bool :=
  llmSuccessOf s && hasValidContent content && completedVariant s.status

/-- `execute_plan`: builds the initial state, runs the graph (`useGraph`)
or the sequential fallback, caches the final state (returned here as the
second component) and assembles the result dict. -/
def executePlan (env : Env) (useGraph : Bool) (specs : AgentExecutionSpec)
    (message : String) : ExecResult × WState :=
  let s0 := initialWState specs message
  let final := if useGraph then executeGraph env s0 else executeSequential env s0
  let content := resolveFinalContent final
  ({ success := successCheck final content
     content := content
     status := final.status
     confidence := final.confidence_score
     errors := final.errors
     execution_steps := final.execution_steps
     validation_attempts := final.validation_attempts }, final)

/-! ## Derived notions and concrete inputs used by the theorems below -/

/-- Number of `call_provider` entries in the execution trace. -/
def ccOf (s : WState) : Nat := s.execution_steps.count "call_provider"

/-- Number of `finalize` entries in the execution trace. -/
def fcOf (s : WState) : Nat := s.execution_steps.count "finalize"

/-- The record `_query_data_sources_node` appends for one enabled
`vector_db` entry whose processing does not raise (`none` = an exception was
raised, so nothing is appended). -/
def vectorRecord : DSOutcome → Option DSRecord
  | .exc _ => none
  | .unavailable => some (.err "vector_db" "Not available")
  | .initFailed => some (.err "vector_db" "Initialization failed")
  | .ok rs => some (.ok "vector_db" rs rs.length)

/-- Per-node offset for the call-count bookkeeping of the graph invariant:
between `call_provider` and `validate_response` the trace is one call ahead
of the attempt counter. -/
def callOff : GNode → Nat
  | .validate => 1
  | _ => 0

/-- Per-node upper bound on the final attempt counter of a graph run. -/
def attB : GNode → WState → Nat
  | .fin, s => s.validation_attempts
  | _, s => max s.max_validation_runs (s.validation_attempts + 1)

/-- Fuel measure for the graph machine: strictly decreases along every
edge. -/
def gmeasure : GNode → WState → Nat
  | .start, s => 3 * (s.max_validation_runs + 1 - s.validation_attempts) + 6
  | .queryDS, s => 3 * (s.max_validation_runs + 1 - s.validation_attempts) + 5
  | .tools, s => 3 * (s.max_validation_runs + 1 - s.validation_attempts) + 4
  | .build, s => 3 * (s.max_validation_runs + 1 - s.validation_attempts) + 3
  | .call, s => 3 * (s.max_validation_runs + 1 - s.validation_attempts) + 2
  | .validate, s => 3 * (s.max_validation_runs + 1 - s.validation_attempts) + 1
  | .fin, _ => 0

/-- A trivial message-assembly oracle for concrete runs. -/
def trivAssemble : WState → List ChatMsg := fun _ => [⟨"user", "Hello"⟩]

/-- A long, well-formed provider answer for concrete runs. -/
def goodResp : ProviderResp :=
  ⟨true, "This is a sufficiently long and helpful answer for the user.", ""⟩

/-- Oracle bundle: provider answers well, but the quality-validation call
raises on every attempt. -/
def envQualityExc : Env :=
  { provider := fun _ => .resp goodResp
    quality := fun _ => .exc "boom"
    ds := fun _ => .ok []
    toolAvail := fun _ => false
    assemble := trivAssemble }

/-- Oracle bundle: the provider reports failure on every attempt. -/
def envProviderFail : Env :=
  { provider := fun _ => .resp ⟨false, "", "api down"⟩
    quality := fun _ => .ok 0 none
    ds := fun _ => .ok []
    toolAvail := fun _ => false
    assemble := trivAssemble }

/-- Spec with no data sources and no tools. -/
def emptySpecs : AgentExecutionSpec := ⟨[], []⟩

/-- Data-source list [A, B, C]: A an enabled `conversation_history` source,
B a disabled `vector_db` source, C an enabled `vector_db` source. -/
def c8Sources : List DataSourceSpec :=
  [⟨.conversation_history, true⟩, ⟨.vector_db, false⟩, ⟨.vector_db, true⟩]

/-- Oracle bundle whose data-source adapter always answers one document. -/
def c8Env : Env :=
  { envQualityExc with ds := fun _ => .ok ["doc"] }

/-- A workflow state whose spec carries `c8Sources`. -/
def c8State : WState := initialWState ⟨c8Sources, []⟩ "hi"

/-- A state that has just received well-formed provider content and is about
to be validated (used to instantiate the gate theorem). -/
def gateState : WState :=
  { initialWState emptySpecs "hi" with
      final_content := some "This is a fine answer with plenty of words." }

/-- All-`vector_db` source list [A, B, C] with B disabled (used to
instantiate the order-preservation theorem). -/
def vecSources : List DataSourceSpec :=
  [⟨.vector_db, true⟩, ⟨.vector_db, false⟩, ⟨.vector_db, true⟩]

/-! ## Helper lemmas: traces and node bookkeeping -/

lemma count_app_one (l : List String) (a b : String) :
    (l ++ [a]).count b = l.count b + (if a = b then 1 else 0) := by
  rcases eq_or_ne a b with rfl | h
  · simp [List.count_append]
  · simp [List.count_append, List.count_cons, h]

lemma count_app_ne (l : List String) (a b : String) (h : a ≠ b) :
    (l ++ [a]).count b = l.count b := by
  rw [count_app_one, if_neg h]
  omega

lemma initNode_keeps (s : WState) :
    (initNode s).validation_attempts = s.validation_attempts ∧
    (initNode s).max_validation_runs = s.max_validation_runs ∧
    (initNode s).is_validated = s.is_validated ∧
    (initNode s).confidence_score = s.confidence_score ∧
    (initNode s).final_content = s.final_content ∧
    (initNode s).llm_response = s.llm_response ∧
    ccOf (initNode s) = ccOf s ∧ fcOf (initNode s) = fcOf s := by
  refine ⟨rfl, rfl, rfl, rfl, rfl, rfl, ?_, ?_⟩ <;>
    simp [initNode, ccOf, fcOf, count_app_ne]

lemma queryDS_keeps (env : Env) (s : WState) :
    (queryDataSourcesNode env s).validation_attempts = s.validation_attempts ∧
    (queryDataSourcesNode env s).max_validation_runs = s.max_validation_runs ∧
    (queryDataSourcesNode env s).is_validated = s.is_validated ∧
    (queryDataSourcesNode env s).confidence_score = s.confidence_score ∧
    (queryDataSourcesNode env s).final_content = s.final_content ∧
    (queryDataSourcesNode env s).llm_response = s.llm_response ∧
    ccOf (queryDataSourcesNode env s) = ccOf s ∧
    fcOf (queryDataSourcesNode env s) = fcOf s := by
  refine ⟨rfl, rfl, rfl, rfl, rfl, rfl, ?_, ?_⟩ <;>
    simp [queryDataSourcesNode, ccOf, fcOf, count_app_ne]

lemma toolsNode_keeps (env : Env) (s : WState) :
    (executeToolsNode env s).validation_attempts = s.validation_attempts ∧
    (executeToolsNode env s).max_validation_runs = s.max_validation_runs ∧
    (executeToolsNode env s).is_validated = s.is_validated ∧
    (executeToolsNode env s).confidence_score = s.confidence_score ∧
    (executeToolsNode env s).final_content = s.final_content ∧
    (executeToolsNode env s).llm_response = s.llm_response ∧
    ccOf (executeToolsNode env s) = ccOf s ∧
    fcOf (executeToolsNode env s) = fcOf s := by
  refine ⟨rfl, rfl, rfl, rfl, rfl, rfl, ?_, ?_⟩ <;>
    simp [executeToolsNode, ccOf, fcOf, count_app_ne]

lemma buildNode_keeps (env : Env) (s : WState) :
    (buildMessagesNode env s).validation_attempts = s.validation_attempts ∧
    (buildMessagesNode env s).max_validation_runs = s.max_validation_runs ∧
    (buildMessagesNode env s).is_validated = s.is_validated ∧
    (buildMessagesNode env s).confidence_score = s.confidence_score ∧
    (buildMessagesNode env s).final_content = s.final_content ∧
    (buildMessagesNode env s).llm_response = s.llm_response ∧
    ccOf (buildMessagesNode env s) = ccOf s ∧
    fcOf (buildMessagesNode env s) = fcOf s := by
  refine ⟨rfl, rfl, rfl, rfl, rfl, rfl, ?_, ?_⟩ <;>
    simp [buildMessagesNode, ccOf, fcOf, count_app_ne]

lemma callNode_keeps (o : ProviderOutcome) (s : WState) :
    (callProviderNode o s).validation_attempts = s.validation_attempts ∧
    (callProviderNode o s).max_validation_runs = s.max_validation_runs ∧
    (callProviderNode o s).is_validated = s.is_validated ∧
    (callProviderNode o s).confidence_score = s.confidence_score ∧
    ccOf (callProviderNode o s) = ccOf s + 1 ∧
    fcOf (callProviderNode o s) = fcOf s := by
  cases o with
  | exc m =>
      refine ⟨rfl, rfl, rfl, rfl, ?_, ?_⟩ <;>
        simp [callProviderNode, ccOf, fcOf, count_app_one, count_app_ne]
  | resp r =>
      by_cases hr : r.success <;>
        · refine ⟨?_, ?_, ?_, ?_, ?_, ?_⟩ <;>
            simp [callProviderNode, hr, ccOf, fcOf, count_app_one, count_app_ne]

lemma validateNode_keeps (q : QualityOutcome) (s : WState) :
    (validateResponseNode q s).validation_attempts = s.validation_attempts + 1 ∧
    (validateResponseNode q s).max_validation_runs = s.max_validation_runs ∧
    ccOf (validateResponseNode q s) = ccOf s ∧
    fcOf (validateResponseNode q s) = fcOf s := by
  unfold validateResponseNode
  cases q <;> dsimp only <;> split <;>
    first
      | (refine ⟨rfl, rfl, ?_, ?_⟩ <;> simp [ccOf, fcOf, count_app_ne])
      | (split <;> (refine ⟨rfl, rfl, ?_, ?_⟩ <;> simp [ccOf, fcOf, count_app_ne]))

lemma route_keeps (s : WState) :
    (routeAfterValidation s).1.validation_attempts = s.validation_attempts ∧
    (routeAfterValidation s).1.max_validation_runs = s.max_validation_runs ∧
    (routeAfterValidation s).1.confidence_score = s.confidence_score ∧
    (routeAfterValidation s).1.final_content = s.final_content ∧
    (routeAfterValidation s).1.llm_response = s.llm_response ∧
    ccOf (routeAfterValidation s).1 = ccOf s ∧
    fcOf (routeAfterValidation s).1 = fcOf s := by
  unfold routeAfterValidation
  split
  · exact ⟨rfl, rfl, rfl, rfl, rfl, rfl, rfl⟩
  · split <;> exact ⟨rfl, rfl, rfl, rfl, rfl, rfl, rfl⟩

lemma route_false (s : WState) (h : (routeAfterValidation s).2 = false) :
    s.is_validated = false ∧ s.validation_attempts < s.max_validation_runs := by
  by_cases hv : s.is_validated
  · simp [routeAfterValidation, hv] at h
  · by_cases hm : s.max_validation_runs ≤ s.validation_attempts
    · simp [routeAfterValidation, hv, hm] at h
    · exact ⟨by simpa using hv, by omega⟩

lemma finalizeNode_keeps (s : WState) :
    (finalizeNode s).validation_attempts = s.validation_attempts ∧
    (finalizeNode s).max_validation_runs = s.max_validation_runs ∧
    ccOf (finalizeNode s) = ccOf s ∧
    fcOf (finalizeNode s) = fcOf s + 1 ∧
    completedVariant (finalizeNode s).status = true := by
  unfold finalizeNode
  dsimp only
  split <;>
    · refine ⟨rfl, rfl, ?_, ?_, ?_⟩
      · simp [ccOf, count_app_ne]
      · simp [fcOf, count_app_one]
      · dsimp only; split <;> simp [completedVariant]

lemma loopIter_facts (env : Env) (s : WState) :
    (loopIter env s).1.max_validation_runs = s.max_validation_runs ∧
    (loopIter env s).1.validation_attempts = s.validation_attempts + 1 ∧
    ccOf (loopIter env s).1 = ccOf s + 1 ∧
    fcOf (loopIter env s).1 = fcOf s ∧
    ((loopIter env s).2 = false →
      s.validation_attempts + 1 < s.max_validation_runs) := by
  unfold loopIter
  set s1 := buildMessagesNode env s with hs1
  set s2 := callProviderNode (env.provider s1.validation_attempts) s1 with hs2
  set s3 := validateResponseNode (env.quality s2.validation_attempts) s2 with hs3
  obtain ⟨hb1, hb2, -, -, -, -, hb7, hb8⟩ := buildNode_keeps env s
  obtain ⟨hc1, hc2, -, -, hc5, hc6⟩ := callNode_keeps (env.provider s1.validation_attempts) s1
  obtain ⟨hv1, hv2, hv3, hv4⟩ := validateNode_keeps (env.quality s2.validation_attempts) s2
  obtain ⟨hr1, hr2, -, -, -, hr6, hr7⟩ := route_keeps s3
  rw [← hs1] at hb1 hb2 hb7 hb8
  rw [← hs2] at hc1 hc2 hc5 hc6
  rw [← hs3] at hv1 hv2 hv3 hv4
  refine ⟨by omega, by omega, by omega, by omega, ?_⟩
  intro h
  have hf := route_false s3 h
  omega

/-- The retry loop always exits through `finalizeNode`, after between 1 and
`max_validation_runs` further validation attempts, with one `call_provider`
trace entry per attempt and no `finalize` entry of its own. -/
lemma seqLoop_spec (env : Env) : ∀ (fuel : Nat) (s : WState), 1 ≤ fuel →
    s.max_validation_runs + 1 ≤ s.validation_attempts + fuel →
    ∃ t, seqLoop env fuel s = finalizeNode t ∧
      t.max_validation_runs = s.max_validation_runs ∧
      s.validation_attempts + 1 ≤ t.validation_attempts ∧
      t.validation_attempts ≤ max s.max_validation_runs (s.validation_attempts + 1) ∧
      ccOf t + s.validation_attempts = ccOf s + t.validation_attempts ∧
      fcOf t = fcOf s := by
  intro fuel
  induction fuel with
  | zero => intro s h1 h2; omega
  | succ fuel ih =>
      intro s _ h2
      obtain ⟨hm, ha, hcc, hfc, hfalse⟩ := loopIter_facts env s
      by_cases hroute : (loopIter env s).2
      · refine ⟨(loopIter env s).1, ?_, by omega, by omega, by omega, by omega, by omega⟩
        simp [seqLoop, hroute]
      · have hlt := hfalse (by simpa using hroute)
        have h1' : 1 ≤ fuel := by omega
        have h2' : (loopIter env s).1.max_validation_runs + 1 ≤
            (loopIter env s).1.validation_attempts + fuel := by omega
        obtain ⟨t, ht, htm, hta, htb, htc, htf⟩ := ih (loopIter env s).1 h1' h2'
        refine ⟨t, ?_, by omega, by omega, by omega, by omega, by omega⟩
        simpa [seqLoop, hroute] using ht

/-- Run invariant of the compiled graph: whenever the machine reaches the
end marker, `max_validation_runs` is unchanged, the attempt counter grew to
at most `attB`, the `call_provider` trace count tracks the attempt counter
(up to the per-node offset), exactly one `finalize` step was appended, and
the final status is a completed variant. -/
lemma graphRun_inv (env : Env) : ∀ (fuel : Nat) (n : GNode) (s t : WState),
    graphRun env fuel n s = some t →
    t.max_validation_runs = s.max_validation_runs ∧
    s.validation_attempts ≤ t.validation_attempts ∧
    t.validation_attempts ≤ attB n s ∧
    ccOf t + s.validation_attempts + callOff n = ccOf s + t.validation_attempts ∧
    fcOf t = fcOf s + 1 ∧
    completedVariant t.status = true := by
  intro fuel
  induction fuel with
  | zero => intro n s t h; simp [graphRun] at h
  | succ fuel ih =>
      intro n s t h
      cases n with
      | fin =>
          simp only [graphRun, Option.some.injEq] at h
          obtain ⟨f1, f2, f3, f4, f5⟩ := finalizeNode_keeps s
          rw [h] at f1 f2 f3 f4 f5
          simp only [attB, callOff]
          exact ⟨f2, by omega, by omega, by omega, by omega, f5⟩
      | start =>
          simp only [graphRun] at h
          obtain ⟨i1, i2, -, -, -, -, i7, i8⟩ := initNode_keeps s
          by_cases hds : anyEnabledDS (initNode s)
          · rw [if_pos hds] at h
            have H := ih _ _ _ h
            simp only [attB, callOff] at H ⊢
            rw [i1, i2, i7, i8] at H
            obtain ⟨H1, H2, H3, H4, H5, H6⟩ := H
            exact ⟨by omega, by omega, by omega, by omega, by omega, H6⟩
          · rw [if_neg hds] at h
            by_cases htl : anyEnabledTool (initNode s)
            · rw [if_pos htl] at h
              have H := ih _ _ _ h
              simp only [attB, callOff] at H ⊢
              rw [i1, i2, i7, i8] at H
              obtain ⟨H1, H2, H3, H4, H5, H6⟩ := H
              exact ⟨by omega, by omega, by omega, by omega, by omega, H6⟩
            · rw [if_neg htl] at h
              have H := ih _ _ _ h
              simp only [attB, callOff] at H ⊢
              rw [i1, i2, i7, i8] at H
              obtain ⟨H1, H2, H3, H4, H5, H6⟩ := H
              exact ⟨by omega, by omega, by omega, by omega, by omega, H6⟩
      | queryDS =>
          simp only [graphRun] at h
          obtain ⟨i1, i2, -, -, -, -, i7, i8⟩ := queryDS_keeps env s
          by_cases htl : anyEnabledTool (queryDataSourcesNode env s)
          · rw [if_pos htl] at h
            have H := ih _ _ _ h
            simp only [attB, callOff] at H ⊢
            rw [i1, i2, i7, i8] at H
            obtain ⟨H1, H2, H3, H4, H5, H6⟩ := H
            exact ⟨by omega, by omega, by omega, by omega, by omega, H6⟩
          · rw [if_neg htl] at h
            have H := ih _ _ _ h
            simp only [attB, callOff] at H ⊢
            rw [i1, i2, i7, i8] at H
            obtain ⟨H1, H2, H3, H4, H5, H6⟩ := H
            exact ⟨by omega, by omega, by omega, by omega, by omega, H6⟩
      | tools =>
          simp only [graphRun] at h
          obtain ⟨i1, i2, -, -, -, -, i7, i8⟩ := toolsNode_keeps env s
          have H := ih _ _ _ h
          simp only [attB, callOff] at H ⊢
          rw [i1, i2, i7, i8] at H
          obtain ⟨H1, H2, H3, H4, H5, H6⟩ := H
          exact ⟨by omega, by omega, by omega, by omega, by omega, H6⟩
      | build =>
          simp only [graphRun] at h
          obtain ⟨i1, i2, -, -, -, -, i7, i8⟩ := buildNode_keeps env s
          have H := ih _ _ _ h
          simp only [attB, callOff] at H ⊢
          rw [i1, i2, i7, i8] at H
          obtain ⟨H1, H2, H3, H4, H5, H6⟩ := H
          exact ⟨by omega, by omega, by omega, by omega, by omega, H6⟩
      | call =>
          simp only [graphRun] at h
          obtain ⟨i1, i2, -, -, i5, i6⟩ :=
            callNode_keeps (env.provider s.validation_attempts) s
          have H := ih _ _ _ h
          simp only [attB, callOff] at H ⊢
          rw [i1, i2, i5, i6] at H
          obtain ⟨H1, H2, H3, H4, H5, H6⟩ := H
          exact ⟨by omega, by omega, by omega, by omega, by omega, H6⟩
      | validate =>
          simp only [graphRun] at h
          obtain ⟨v1, v2, v3, v4⟩ :=
            validateNode_keeps (env.quality s.validation_attempts) s
          obtain ⟨r1, r2, -, -, -, r6, r7⟩ :=
            route_keeps (validateResponseNode (env.quality s.validation_attempts) s)
          by_cases hr2 : (routeAfterValidation
              (validateResponseNode (env.quality s.validation_attempts) s)).2
          · rw [if_pos hr2] at h
            have H := ih _ _ _ h
            simp only [attB, callOff] at H ⊢
            rw [r1, r2, r6, r7, v1, v2, v3, v4] at H
            obtain ⟨H1, H2, H3, H4, H5, H6⟩ := H
            exact ⟨by omega, by omega, by omega, by omega, by omega, H6⟩
          · rw [if_neg hr2] at h
            have hf := (route_false (validateResponseNode (env.quality s.validation_attempts) s)
              (by simpa using hr2)).2
            rw [v1, v2] at hf
            have H := ih _ _ _ h
            simp only [attB, callOff] at H ⊢
            rw [r1, r2, r6, r7, v1, v2, v3, v4] at H
            obtain ⟨H1, H2, H3, H4, H5, H6⟩ := H
            exact ⟨by omega, by omega, by omega, by omega, by omega, H6⟩

/-- With fuel exceeding the `gmeasure` of the current configuration the
graph machine never exhausts its fuel. -/
lemma graphRun_isSome (env : Env) : ∀ (fuel : Nat) (n : GNode) (s : WState),
    gmeasure n s < fuel → (graphRun env fuel n s).isSome = true := by
  intro fuel
  induction fuel with
  | zero => intro n s h; omega
  | succ fuel ih =>
      intro n s h
      cases n with
      | fin => simp [graphRun]
      | start =>
          simp only [graphRun]
          obtain ⟨i1, i2, -, -, -, -, -, -⟩ := initNode_keeps s
          by_cases hds : anyEnabledDS (initNode s)
          · rw [if_pos hds]
            refine ih _ _ ?_
            simp only [gmeasure] at h ⊢
            rw [i1, i2]
            omega
          · rw [if_neg hds]
            by_cases htl : anyEnabledTool (initNode s)
            · rw [if_pos htl]
              refine ih _ _ ?_
              simp only [gmeasure] at h ⊢
              rw [i1, i2]
              omega
            · rw [if_neg htl]
              refine ih _ _ ?_
              simp only [gmeasure] at h ⊢
              rw [i1, i2]
              omega
      | queryDS =>
          simp only [graphRun]
          obtain ⟨i1, i2, -, -, -, -, -, -⟩ := queryDS_keeps env s
          by_cases htl : anyEnabledTool (queryDataSourcesNode env s)
          · rw [if_pos htl]
            refine ih _ _ ?_
            simp only [gmeasure] at h ⊢
            rw [i1, i2]
            omega
          · rw [if_neg htl]
            refine ih _ _ ?_
            simp only [gmeasure] at h ⊢
            rw [i1, i2]
            omega
      | tools =>
          simp only [graphRun]
          obtain ⟨i1, i2, -, -, -, -, -, -⟩ := toolsNode_keeps env s
          refine ih _ _ ?_
          simp only [gmeasure] at h ⊢
          rw [i1, i2]
          omega
      | build =>
          simp only [graphRun]
          obtain ⟨i1, i2, -, -, -, -, -, -⟩ := buildNode_keeps env s
          refine ih _ _ ?_
          simp only [gmeasure] at h ⊢
          rw [i1, i2]
          omega
      | call =>
          simp only [graphRun]
          obtain ⟨i1, i2, -, -, -, -⟩ := callNode_keeps (env.provider s.validation_attempts) s
          refine ih _ _ ?_
          simp only [gmeasure] at h ⊢
          rw [i1, i2]
          omega
      | validate =>
          simp only [graphRun]
          obtain ⟨v1, v2, -, -⟩ := validateNode_keeps (env.quality s.validation_attempts) s
          obtain ⟨r1, r2, -, -, -, -, -⟩ :=
            route_keeps (validateResponseNode (env.quality s.validation_attempts) s)
          by_cases hr2 : (routeAfterValidation
              (validateResponseNode (env.quality s.validation_attempts) s)).2
          · rw [if_pos hr2]
            refine ih _ _ ?_
            simp only [gmeasure] at h ⊢
            omega
          · rw [if_neg hr2]
            have hf := (route_false (validateResponseNode (env.quality s.validation_attempts) s)
              (by simpa using hr2)).2
            rw [v1, v2] at hf
            refine ih _ _ ?_
            simp only [gmeasure] at h ⊢
            rw [r1, r2, v1, v2]
            omega

lemma preLoop_keeps (env : Env) (s0 : WState) :
    (preLoopState env s0).validation_attempts = s0.validation_attempts ∧
    (preLoopState env s0).max_validation_runs = s0.max_validation_runs ∧
    (preLoopState env s0).is_validated = s0.is_validated ∧
    (preLoopState env s0).confidence_score = s0.confidence_score ∧
    (preLoopState env s0).final_content = s0.final_content ∧
    (preLoopState env s0).llm_response = s0.llm_response ∧
    ccOf (preLoopState env s0) = ccOf s0 ∧
    fcOf (preLoopState env s0) = fcOf s0 := by
  unfold preLoopState
  obtain ⟨a1, a2, a3, a4, a5, a6, a7, a8⟩ := initNode_keeps s0
  obtain ⟨q1, q2, q3, q4, q5, q6, q7, q8⟩ := queryDS_keeps env (initNode s0)
  obtain ⟨t1, t2, t3, t4, t5, t6, t7, t8⟩ := toolsNode_keeps env (initNode s0)
  obtain ⟨u1, u2, u3, u4, u5, u6, u7, u8⟩ :=
    toolsNode_keeps env (queryDataSourcesNode env (initNode s0))
  by_cases h1 : (initNode s0).specs.data_sources.isEmpty
  · rw [if_pos h1]
    by_cases h2 : (initNode s0).specs.tools.isEmpty
    · rw [if_pos h2]
      exact ⟨a1, a2, a3, a4, a5, a6, a7, a8⟩
    · rw [if_neg h2]
      exact ⟨by omega, by omega, by rw [t3, a3], by rw [t4, a4], by rw [t5, a5],
        by rw [t6, a6], by omega, by omega⟩
  · rw [if_neg h1]
    by_cases h2 : (queryDataSourcesNode env (initNode s0)).specs.tools.isEmpty
    · rw [if_pos h2]
      exact ⟨by omega, by omega, by rw [q3, a3], by rw [q4, a4], by rw [q5, a5],
        by rw [q6, a6], by omega, by omega⟩
    · rw [if_neg h2]
      exact ⟨by omega, by omega, by rw [u3, q3, a3], by rw [u4, q4, a4],
        by rw [u5, q5, a5], by rw [u6, q6, a6], by omega, by omega⟩

/-- `_execute_sequential` always ends by running `_finalize_node` once, and
the loop bookkeeping from `seqLoop_spec` carries over. -/
lemma executeSequential_spec (env : Env) (s0 : WState) :
    ∃ t, executeSequential env s0 = finalizeNode t ∧
      t.max_validation_runs = s0.max_validation_runs ∧
      s0.validation_attempts + 1 ≤ t.validation_attempts ∧
      t.validation_attempts ≤ max s0.max_validation_runs (s0.validation_attempts + 1) ∧
      ccOf t + s0.validation_attempts = ccOf s0 + t.validation_attempts ∧
      fcOf t = fcOf s0 := by
  unfold executeSequential
  obtain ⟨p1, p2, -, -, -, -, p7, p8⟩ := preLoop_keeps env s0
  obtain ⟨t, ht, h1, h2, h3, h4, h5⟩ :=
    seqLoop_spec env ((preLoopState env s0).max_validation_runs + 1)
      (preLoopState env s0) (by omega) (by omega)
  exact ⟨t, ht, by omega, by omega, by omega, by omega, by omega⟩

/-- The final cached state of `execute_plan`, on either execution path:
the attempt ceiling stays 5, at most 5 attempts and exactly one
`call_provider` step per attempt are recorded, `finalize` ran exactly once,
and the status is a completed variant. -/
lemma executePlan_state_spec (env : Env) (useGraph : Bool)
    (specs : AgentExecutionSpec) (message : String) :
    (executePlan env useGraph specs message).2.max_validation_runs = 5 ∧
    (executePlan env useGraph specs message).2.validation_attempts ≤ 5 ∧
    ccOf (executePlan env useGraph specs message).2 =
      (executePlan env useGraph specs message).2.validation_attempts ∧
    fcOf (executePlan env useGraph specs message).2 = 1 ∧
    completedVariant (executePlan env useGraph specs message).2.status = true := by
  have hcc0 : ccOf (initialWState specs message) = 0 := rfl
  have hfc0 : fcOf (initialWState specs message) = 0 := rfl
  have hatt0 : (initialWState specs message).validation_attempts = 0 := rfl
  have hmax0 : (initialWState specs message).max_validation_runs = 5 := rfl
  cases useGraph with
  | false =>
      obtain ⟨t, ht, h1, h2, h3, h4, h5⟩ :=
        executeSequential_spec env (initialWState specs message)
      obtain ⟨f1, f2, f3, f4, f5⟩ := finalizeNode_keeps t
      have hfinal : (executePlan env false specs message).2 =
          finalizeNode t := by
        simp only [executePlan, Bool.false_eq_true, if_neg, ite_false]
        exact ht
      rw [hfinal]
      rw [hmax0] at h1
      rw [hatt0] at h2 h3 h4
      rw [hcc0] at h4
      rw [hfc0] at h5
      refine ⟨by omega, by omega, by omega, by omega, f5⟩
  | true =>
      have hsome := graphRun_isSome env (3 * (initialWState specs message).max_validation_runs + 10)
        .start (initialWState specs message)
        (by rw [hmax0]; simp [gmeasure, hmax0, hatt0])
      obtain ⟨t, ht⟩ := Option.isSome_iff_exists.mp hsome
      obtain ⟨g1, g2, g3, g4, g5, g6⟩ := graphRun_inv env _ _ _ _ ht
      have hfinal : (executePlan env true specs message).2 = t := by
        simp only [executePlan, ite_true]
        unfold executeGraph
        rw [ht]
        rfl
      rw [hfinal]
      simp only [attB, callOff] at g3 g4
      rw [hmax0] at g1 g3
      rw [hatt0] at g2 g3 g4
      rw [hcc0] at g4
      rw [hfc0] at g5
      refine ⟨by omega, by omega, by omega, by omega, g6⟩

lemma route_snd_true_of_validated (s : WState) (h : s.is_validated = true) :
    (routeAfterValidation s).2 = true := by
  simp [routeAfterValidation, h]

lemma route_snd_false_of (s : WState) (h1 : s.is_validated = false)
    (h2 : s.validation_attempts < s.max_validation_runs) :
    (routeAfterValidation s).2 = false := by
  simp [routeAfterValidation, h1, Nat.not_le.mpr h2]

lemma validateNode_contentFailed (q : QualityOutcome) (s : WState)
    (h : contentFailed s.final_content = true) :
    (validateResponseNode q s).confidence_score = 0 ∧
    (validateResponseNode q s).is_validated = s.is_validated := by
  have h' : contentFailed
      ({ s with execution_steps := s.execution_steps ++ ["validate_response"],
                validation_attempts := s.validation_attempts + 1 } :
        WState).final_content = true := h
  cases q <;> simp [validateResponseNode, h']

lemma validateNode_exc (s : WState) (m : String)
    (h : contentFailed s.final_content = false) :
    (validateResponseNode (.exc m) s).confidence_score = 1/2 ∧
    (validateResponseNode (.exc m) s).is_validated = true := by
  have h' : contentFailed
      ({ s with execution_steps := s.execution_steps ++ ["validate_response"],
                validation_attempts := s.validation_attempts + 1 } :
        WState).final_content = false := h
  simp [validateResponseNode, h']

lemma validateNode_ok (s : WState) (c : ℚ) (fb : Option String)
    (h : contentFailed s.final_content = false) :
    (validateResponseNode (.ok c fb) s).confidence_score = c ∧
    ((3:ℚ)/4 ≤ c → (validateResponseNode (.ok c fb) s).is_validated = true) ∧
    (c < 3/4 → (validateResponseNode (.ok c fb) s).is_validated = false) := by
  have h' : contentFailed
      ({ s with execution_steps := s.execution_steps ++ ["validate_response"],
                validation_attempts := s.validation_attempts + 1 } :
        WState).final_content = false := h
  by_cases hc : (3:ℚ)/4 ≤ c
  · simp [validateResponseNode, h', hc]
  · refine ⟨?_, ?_, ?_⟩ <;> simp [validateResponseNode, h', hc]

lemma finalize_lowconf (t : WState) (h : t.confidence_score < 3/4) :
    (finalizeNode t).final_content = some fallbackMessage0 ∧
    (finalizeNode t).errors = t.errors ++ ["Low confidence response replaced with fallback"] ∧
    (finalizeNode t).status = "completed_with_errors" := by
  unfold finalizeNode
  have h' : ({ t with execution_steps := t.execution_steps ++ ["finalize"] } :
      WState).confidence_score < 3/4 := h
  refine ⟨?_, ?_, ?_⟩
  all_goals simp only [if_pos h']
  all_goals try simp

lemma seqLoop_eq_pre (env : Env) : ∀ (fuel : Nat) (s : WState), 1 ≤ fuel →
    s.max_validation_runs + 1 ≤ s.validation_attempts + fuel →
    seqLoop env fuel s = finalizeNode (seqLoopPre env fuel s) := by
  intro fuel
  induction fuel with
  | zero => intro s h1 h2; omega
  | succ fuel ih =>
      intro s _ h2
      obtain ⟨hm, ha, -, -, hfalse⟩ := loopIter_facts env s
      by_cases hroute : (loopIter env s).2
      · simp [seqLoop, seqLoopPre, hroute]
      · have hlt := hfalse (by simpa using hroute)
        have e1 : 1 ≤ fuel := by omega
        have e2 : (loopIter env s).1.max_validation_runs + 1 ≤
            (loopIter env s).1.validation_attempts + fuel := by omega
        simp only [seqLoop, seqLoopPre, hroute, Bool.false_eq_true, if_false, ite_false]
        exact ih _ e1 e2

lemma finalize_keeps_more (s : WState) :
    (finalizeNode s).confidence_score = s.confidence_score ∧
    (finalizeNode s).llm_response = s.llm_response ∧
    (finalizeNode s).is_validated = s.is_validated := by
  unfold finalizeNode
  dsimp only
  split <;> exact ⟨rfl, rfl, rfl⟩

lemma finalize_highconf (t : WState) (h : ¬ t.confidence_score < 3/4) :
    (finalizeNode t).final_content = t.final_content ∧
    (finalizeNode t).errors = t.errors := by
  unfold finalizeNode
  have h' : ¬ ({ t with execution_steps := t.execution_steps ++ ["finalize"] } :
      WState).confidence_score < 3/4 := h
  refine ⟨?_, ?_⟩ <;> simp only [if_neg h']

lemma finalize_status (t : WState) :
    ((finalizeNode t).status = "completed" ↔ (finalizeNode t).errors = []) ∧
    (finalizeNode t).end_time_set = true := by
  unfold finalizeNode
  dsimp only
  split
  · have hne : (t.errors ++ ["Low confidence response replaced with fallback"]).isEmpty
        = false := by simp
    simp [hne]
  · by_cases he : t.errors.isEmpty
    · have he' : t.errors = [] := by simpa using he
      simp [he, he']
    · have he' : ¬ t.errors = [] := by simpa using he
      simp [he, he']

lemma successCheck_eq (s : WState) (c : String) :
    successCheck s c =
      (hasValidContent c && (llmSuccessOf s || completedVariant s.status)) := by
  cases h1 : llmSuccessOf s <;> cases h2 : hasValidContent c <;>
    cases h3 : completedVariant s.status <;> simp [successCheck, h1, h2, h3]

/-- Under a well-formed provider response and a quality call that raises,
one loop iteration takes the `finalize` edge with neutral confidence. -/
lemma loopIter_of_exc (env : Env) (s : WState) (r : ProviderResp) (m : String)
    (hp : env.provider s.validation_attempts = .resp r) (hs : r.success = true)
    (hcne : (r.content = "") = False) (hcpre : strStartsWith r.content "Error:" = false)
    (hq : env.quality s.validation_attempts = .exc m) :
    (loopIter env s).2 = true ∧
    (loopIter env s).1.confidence_score = 1/2 ∧
    (loopIter env s).1.is_validated = true := by
  unfold loopIter
  have h1 : (buildMessagesNode env s).validation_attempts = s.validation_attempts := rfl
  rw [h1, hp]
  have h2 : callProviderNode (.resp r) (buildMessagesNode env s) =
      { buildMessagesNode env s with
          execution_steps := (buildMessagesNode env s).execution_steps ++ ["call_provider"],
          llm_response := some r,
          final_content := some r.content } := by
    simp [callProviderNode, hs]
  rw [h2]
  have h3 : ({ buildMessagesNode env s with
      execution_steps := (buildMessagesNode env s).execution_steps ++ ["call_provider"],
      llm_response := some r,
      final_content := some r.content } : WState).validation_attempts =
        s.validation_attempts := rfl
  rw [h3, hq]
  have h4 : contentFailed (some r.content) = false := by
    simp [contentFailed, hcpre]
    intro hc
    exact absurd hc (by simpa using hcne)
  obtain ⟨e1, e2⟩ := validateNode_exc
    ({ buildMessagesNode env s with
        execution_steps := (buildMessagesNode env s).execution_steps ++ ["call_provider"],
        llm_response := some r,
        final_content := some r.content }) m h4
  exact ⟨route_snd_true_of_validated _ e2, by
    obtain ⟨k1, k2, -, -, -, -, -⟩ := route_keeps (validateResponseNode (.exc m)
      ({ buildMessagesNode env s with
          execution_steps := (buildMessagesNode env s).execution_steps ++ ["call_provider"],
          llm_response := some r,
          final_content := some r.content }))
    simpa [route_keeps] using e1, by
    have hval := route_snd_true_of_validated _ e2
    simp [routeAfterValidation, e2]⟩

/-! ## Claim theorems -/

/-- C1: for every execution of a plan (graph or sequential path), the number
of CALL_PROVIDER node invocations is at most `max_validation_runs` (5 in the
initial state), and the state's `validation_attempts` counter never exceeds
`max_validation_runs`. -/
theorem C1_bounded_retries (env : Env) (useGraph : Bool)
    (specs : AgentExecutionSpec) (message : String) :
    (executePlan env useGraph specs message).2.max_validation_runs = 5 ∧
    (executePlan env useGraph specs message).2.execution_steps.count "call_provider" ≤ 5 ∧
    (executePlan env useGraph specs message).2.validation_attempts ≤ 5 := by
  obtain ⟨h1, h2, h3, h4, h5⟩ := executePlan_state_spec env useGraph specs message
  refine ⟨h1, ?_, h2⟩
  have : ccOf (executePlan env useGraph specs message).2 ≤ 5 := by omega
  exact this

/-- C2: for every input (any oracle behaviour, either execution path) the
workflow terminates: `executePlan` is a total function, the FINALIZE node
runs exactly once, the final status is a completed variant, and the result
dict carries that status. -/
theorem C2_always_terminates (env : Env) (useGraph : Bool)
    (specs : AgentExecutionSpec) (message : String) :
    (executePlan env useGraph specs message).2.execution_steps.count "finalize" = 1 ∧
    completedVariant (executePlan env useGraph specs message).2.status = true ∧
    (executePlan env useGraph specs message).1.status =
      (executePlan env useGraph specs message).2.status := by
  obtain ⟨-, -, -, h4, h5⟩ := executePlan_state_spec env useGraph specs message
  exact ⟨h4, h5, rfl⟩

/-- C3 counterexample: in the run where the provider answers well but the
quality-validation call raises on the first attempt, the state after
validation has confidence 0.5 < 0.75 and only 1 of 5 attempts used, yet no
retry happens — exactly one CALL_PROVIDER invocation is ever made.  This
refutes "a response whose confidence is below 0.75 is always retried unless
validation_attempts has reached max_validation_runs". -/
theorem C3_counterexample :
    (executePlan envQualityExc false emptySpecs "Hello").2.confidence_score < 3/4 ∧
    (executePlan envQualityExc false emptySpecs "Hello").2.validation_attempts = 1 ∧
    (executePlan envQualityExc false emptySpecs "Hello").2.max_validation_runs = 5 ∧
    (executePlan envQualityExc false emptySpecs "Hello").2.execution_steps.count
      "call_provider" = 1 := by
  have hst : (executePlan envQualityExc false emptySpecs "Hello").2 =
      finalizeNode ((loopIter envQualityExc
        (preLoopState envQualityExc (initialWState emptySpecs "Hello"))).1) := rfl
  obtain ⟨k1, -, -⟩ := finalize_keeps_more
    ((loopIter envQualityExc (preLoopState envQualityExc (initialWState emptySpecs "Hello"))).1)
  obtain ⟨f1, f2, f3, -, -⟩ := finalizeNode_keeps
    ((loopIter envQualityExc (preLoopState envQualityExc (initialWState emptySpecs "Hello"))).1)
  have hconf : ((loopIter envQualityExc
      (preLoopState envQualityExc (initialWState emptySpecs "Hello"))).1).confidence_score
        = 1/2 := rfl
  have hatt : ((loopIter envQualityExc
      (preLoopState envQualityExc (initialWState emptySpecs "Hello"))).1).validation_attempts
        = 1 := rfl
  have hmaxv : ((loopIter envQualityExc
      (preLoopState envQualityExc (initialWState emptySpecs "Hello"))).1).max_validation_runs
        = 5 := rfl
  have hcc : ccOf ((loopIter envQualityExc
      (preLoopState envQualityExc (initialWState emptySpecs "Hello"))).1) = 1 := rfl
  rw [hst]
  refine ⟨?_, ?_, ?_, ?_⟩
  · rw [k1, hconf]; norm_num
  · rw [f1, hatt]
  · rw [f2, hmaxv]
  · show ccOf _ = 1
    rw [f3, hcc]

/-- C3 (amended): after the VALIDATE_RESPONSE node, a confidence ≥ 0.75 is
never followed by a retry; and a confidence < 0.75 leads to a retry whenever
attempts are not exhausted *and the quality-validation call returned
normally* (if it raised, the node force-accepts with confidence 0.5). -/
theorem C3_confidence_gate (s : WState) (q : QualityOutcome) :
    ((3:ℚ)/4 ≤ (validateResponseNode q s).confidence_score →
      (routeAfterValidation (validateResponseNode q s)).2 = true) ∧
    (s.is_validated = false →
      ∀ c fb, q = .ok c fb →
        (validateResponseNode q s).confidence_score < 3/4 →
        (validateResponseNode q s).validation_attempts < s.max_validation_runs →
        (routeAfterValidation (validateResponseNode q s)).2 = false) := by
  constructor
  · intro hconf
    by_cases hcf : contentFailed s.final_content
    · obtain ⟨e1, -⟩ := validateNode_contentFailed q s hcf
      rw [e1] at hconf
      norm_num at hconf
    · cases q with
      | exc m =>
          obtain ⟨e1, e2⟩ := validateNode_exc s m (by simpa using hcf)
          exact route_snd_true_of_validated _ e2
      | ok c fb =>
          obtain ⟨e1, e2, e3⟩ := validateNode_ok s c fb (by simpa using hcf)
          rw [e1] at hconf
          exact route_snd_true_of_validated _ (e2 hconf)
  · intro hval c fb hq hconf hatt
    subst hq
    obtain ⟨v1, v2, -, -⟩ := validateNode_keeps (.ok c fb) s
    by_cases hcf : contentFailed s.final_content
    · obtain ⟨e1, e2⟩ := validateNode_contentFailed (.ok c fb) s hcf
      refine route_snd_false_of _ (by rw [e2]; exact hval) ?_
      omega
    · obtain ⟨e1, e2, e3⟩ := validateNode_ok s c fb (by simpa using hcf)
      rw [e1] at hconf
      refine route_snd_false_of _ (e3 hconf) ?_
      omega

/-- Witness for C3 (amended): at a concrete pre-validation state, a graded
confidence of 1 finalizes and a graded confidence of 0 retries. -/
theorem C3_confidence_gate_witness :
    (routeAfterValidation (validateResponseNode (.ok 1 none) gateState)).2 = true ∧
    (routeAfterValidation (validateResponseNode (.ok 0 none) gateState)).2 = false := by
  have hcf : contentFailed gateState.final_content = false := by decide
  constructor
  · refine (C3_confidence_gate gateState (.ok 1 none)).1 ?_
    rw [(validateNode_ok gateState 1 none hcf).1]
    norm_num
  · refine (C3_confidence_gate gateState (.ok 0 none)).2 rfl 0 none rfl ?_ ?_
    · rw [(validateNode_ok gateState 0 none hcf).1]
      norm_num
    · obtain ⟨v1, -, -, -⟩ := validateNode_keeps (.ok 0 none) gateState
      rw [v1]
      decide

/-- C4 counterexample: when the provider reports failure on every attempt,
FINALIZE substitutes a fallback message and the run ends
`completed_with_errors`; `execute_plan` then reports `success = True` even
though the provider call never succeeded, refuting the claimed
"provider success AND valid content AND completed status" conjunction. -/
theorem C4_counterexample :
    (executePlan envProviderFail false emptySpecs "Hello").1.success = true ∧
    successClaimed (executePlan envProviderFail false emptySpecs "Hello").2
      (executePlan envProviderFail false emptySpecs "Hello").1.content = false := by
  have hrun : (executePlan envProviderFail false emptySpecs "Hello").2 =
      finalizeNode (seqLoopPre envProviderFail
        ((preLoopState envProviderFail (initialWState emptySpecs "Hello")).max_validation_runs + 1)
        (preLoopState envProviderFail (initialWState emptySpecs "Hello"))) := by
    show seqLoop envProviderFail
        ((preLoopState envProviderFail (initialWState emptySpecs "Hello")).max_validation_runs + 1)
        (preLoopState envProviderFail (initialWState emptySpecs "Hello")) = _
    exact seqLoop_eq_pre envProviderFail _ _ (by omega) (by omega)
  have hconf : (seqLoopPre envProviderFail
      ((preLoopState envProviderFail (initialWState emptySpecs "Hello")).max_validation_runs + 1)
      (preLoopState envProviderFail (initialWState emptySpecs "Hello"))).confidence_score
        = 0 := rfl
  have hllm : (seqLoopPre envProviderFail
      ((preLoopState envProviderFail (initialWState emptySpecs "Hello")).max_validation_runs + 1)
      (preLoopState envProviderFail (initialWState emptySpecs "Hello"))).llm_response
        = some ⟨false, "", "api down"⟩ := rfl
  obtain ⟨l1, -, l3⟩ := finalize_lowconf (seqLoopPre envProviderFail
    ((preLoopState envProviderFail (initialWState emptySpecs "Hello")).max_validation_runs + 1)
    (preLoopState envProviderFail (initialWState emptySpecs "Hello")))
    (by rw [hconf]; norm_num)
  obtain ⟨-, k2, -⟩ := finalize_keeps_more (seqLoopPre envProviderFail
    ((preLoopState envProviderFail (initialWState emptySpecs "Hello")).max_validation_runs + 1)
    (preLoopState envProviderFail (initialWState emptySpecs "Hello")))
  have hcontent : (executePlan envProviderFail false emptySpecs "Hello").1.content =
      fallbackMessage0 := by
    show resolveFinalContent (executePlan envProviderFail false emptySpecs "Hello").2 = _
    rw [hrun]
    simp [resolveFinalContent, l1]
  have hsucc : (executePlan envProviderFail false emptySpecs "Hello").1.success =
      successCheck (executePlan envProviderFail false emptySpecs "Hello").2
        (executePlan envProviderFail false emptySpecs "Hello").1.content := rfl
  have hvalid : hasValidContent fallbackMessage0 = true := by decide
  constructor
  · rw [hsucc, hcontent]
    rw [hrun] at *
    simp [successCheck, hvalid, completedVariant, l3]
  · rw [hcontent]
    rw [hrun]
    simp [successClaimed, llmSuccessOf, k2, hllm]

/-- C4 (amended): the success flag equals: valid content (non-empty, not the
placeholder, no "Error:" prefix) AND (the provider call reported success OR
the final status is a completed variant). -/
theorem C4_success_flag (env : Env) (useGraph : Bool)
    (specs : AgentExecutionSpec) (message : String) :
    (executePlan env useGraph specs message).1.success =
      (hasValidContent (executePlan env useGraph specs message).1.content &&
        (llmSuccessOf (executePlan env useGraph specs message).2 ||
          completedVariant (executePlan env useGraph specs message).2.status)) := by
  exact successCheck_eq _ _

/-- C5: FINALIZE runs exactly once per execution; below confidence 0.75 it
substitutes the first of the fixed fallback messages (one of the fixed set)
and appends an error entry documenting the substitution, otherwise it leaves
content and errors alone; it sets status to "completed" exactly when the
errors list is empty (else "completed_with_errors") and stamps the end
time. -/
theorem C5_finalize_semantics (env : Env) (useGraph : Bool)
    (specs : AgentExecutionSpec) (message : String) (s : WState) :
    (executePlan env useGraph specs message).2.execution_steps.count "finalize" = 1 ∧
    (s.confidence_score < 3/4 →
      (finalizeNode s).final_content = some fallbackMessage0 ∧
      fallbackMessage0 ∈ fallbackMessages ∧
      (finalizeNode s).errors =
        s.errors ++ ["Low confidence response replaced with fallback"]) ∧
    (¬ s.confidence_score < 3/4 →
      (finalizeNode s).final_content = s.final_content ∧
      (finalizeNode s).errors = s.errors) ∧
    ((finalizeNode s).status = "completed" ↔ (finalizeNode s).errors = []) ∧
    (finalizeNode s).end_time_set = true := by
  obtain ⟨-, -, -, h4, -⟩ := executePlan_state_spec env useGraph specs message
  refine ⟨h4, ?_, finalize_highconf s, (finalize_status s).1, (finalize_status s).2⟩
  intro h
  obtain ⟨a, b, -⟩ := finalize_lowconf s h
  refine ⟨a, ?_, b⟩
  simp [fallbackMessages, fallbackMessage0]

/-- Witness for C5 at the zero-confidence initial state. -/
theorem C5_finalize_semantics_witness :
    (finalizeNode (initialWState emptySpecs "hi")).final_content =
      some fallbackMessage0 ∧
    (finalizeNode (initialWState emptySpecs "hi")).end_time_set = true := by
  have h := C5_finalize_semantics envProviderFail false emptySpecs "Hello"
    (initialWState emptySpecs "hi")
  refine ⟨(h.2.1 ?_).1, h.2.2.2.2⟩
  have h0 : (initialWState emptySpecs "hi").confidence_score = 0 := rfl
  rw [h0]
  norm_num

/-- C6 counterexample: on `"   abcdefghijk"` (three *leading* spaces, no
internal word-separator, trimmed length 11) the claim's staged checks demand
confidence 0.2 ("lacks substance"), but the code counts the raw spaces
(`response.count(" ") = 3`), passes the stage, and returns the base
confidence 0.5 as valid. -/
theorem C6_counterexample :
    claimRuleConfidence "   abcdefghijk" = some (1/5) ∧
    (validateResponseQuality "   abcdefghijk" .noProvider).confidence = 1/2 ∧
    (validateResponseQuality "   abcdefghijk" .noProvider).is_valid = true ∧
    (1 : ℚ)/2 ≠ 1/5 := by
  refine ⟨rfl, rfl, rfl, by norm_num⟩

/-- C6 (amended): the staged checks with the space count taken on the *raw*
(untrimmed) text, and the graded confidence `0.3·base + 0.7·min(score/100, 1)`
(the code caps the parsed score at 100); unparseable scores fall back to
0.75 on an "acceptable"/"good" keyword, else 0.5 with the raw text as
feedback. -/
theorem C6_validator_stages (r : String) (g : GradeOutcome) :
    ((pyStrip r.toList).length < 10 →
      validateResponseQuality r g = ⟨false, 1/10, some "Response is too short"⟩) ∧
    (¬ (pyStrip r.toList).length < 10 → spaceCount r.toList < 3 →
      validateResponseQuality r g = ⟨false, 1/5, some "Response lacks substance"⟩) ∧
    (¬ (pyStrip r.toList).length < 10 → ¬ spaceCount r.toList < 3 →
      (hasRefusalPattern r && decide (r.toList.length < 100)) = true →
      validateResponseQuality r g =
        ⟨false, 3/10, some "Response appears to be a refusal or error message"⟩) ∧
    (¬ (pyStrip r.toList).length < 10 → ¬ spaceCount r.toList < 3 →
      (hasRefusalPattern r && decide (r.toList.length < 100)) = false →
      (validateResponseQuality r .noProvider = ⟨true, 1/2, none⟩ ∧
       validateResponseQuality r .initFailed = ⟨true, 1/2, none⟩ ∧
       (∀ m, validateResponseQuality r (.exc m) = ⟨true, 1/2, none⟩) ∧
       (∀ text n, g = .graded text → searchScore text.toList = some n →
         (validateResponseQuality r g).confidence =
           (1 : ℚ)/2 * (3/10) + min ((n : ℚ)/100) 1 * (7/10)) ∧
       (∀ text, g = .graded text → searchScore text.toList = none →
         gradeKeywordOk text = true →
         validateResponseQuality r g = ⟨true, 3/4, none⟩) ∧
       (∀ text, g = .graded text → searchScore text.toList = none →
         gradeKeywordOk text = false →
         validateResponseQuality r g = ⟨false, 1/2, some text⟩))) := by
  refine ⟨?_, ?_, ?_, ?_⟩
  · intro h1
    unfold validateResponseQuality
    rw [if_pos h1]
  · intro h1 h2
    unfold validateResponseQuality
    rw [if_neg h1, if_pos h2]
  · intro h1 h2 h3
    unfold validateResponseQuality
    rw [if_neg h1, if_neg h2, if_pos h3]
  · intro h1 h2 h3
    have h3' : ¬ ((hasRefusalPattern r && decide (r.toList.length < 100)) = true) := by
      rw [h3]
      exact Bool.false_ne_true
    refine ⟨?_, ?_, ?_, ?_, ?_, ?_⟩
    · unfold validateResponseQuality
      rw [if_neg h1, if_neg h2, if_neg h3']
    · unfold validateResponseQuality
      rw [if_neg h1, if_neg h2, if_neg h3']
    · intro m
      unfold validateResponseQuality
      rw [if_neg h1, if_neg h2, if_neg h3']
    · intro text n hg hscore
      subst hg
      unfold validateResponseQuality
      rw [if_neg h1, if_neg h2, if_neg h3']
      dsimp only
      simp only [hscore]
      split <;> rfl
    · intro text hg hscore hkw
      subst hg
      unfold validateResponseQuality
      rw [if_neg h1, if_neg h2, if_neg h3']
      dsimp only
      simp only [hscore]
      rw [if_pos hkw]
    · intro text hg hscore hkw
      subst hg
      unfold validateResponseQuality
      rw [if_neg h1, if_neg h2, if_neg h3']
      dsimp only
      simp only [hscore]
      rw [if_neg (by rw [hkw]; exact Bool.false_ne_true)]

/-- Witness for C6 at concrete inputs for each stage. -/
theorem C6_validator_stages_witness :
    validateResponseQuality "hi" .noProvider =
      ⟨false, 1/10, some "Response is too short"⟩ ∧
    validateResponseQuality "exactly-ten" .noProvider =
      ⟨false, 1/5, some "Response lacks substance"⟩ ∧
    validateResponseQuality "This is a good long answer to the question." .noProvider =
      ⟨true, 1/2, none⟩ := by
  refine ⟨(C6_validator_stages "hi" .noProvider).1 (by decide), ?_, ?_⟩
  · exact (C6_validator_stages "exactly-ten" .noProvider).2.1 (by decide) (by decide)
  · exact ((C6_validator_stages "This is a good long answer to the question."
      .noProvider).2.2.2 (by decide) (by decide) (by decide)).1

/-- C7: the adaptive planner adopts the reasoning engine's optimized spec
(with `reasoning_applied = true` and the reasoning confidence) exactly when
that confidence reaches the reasoning threshold; otherwise it returns the
original spec unchanged with `reasoning_applied = false`, confidence 1, and
the rejected suggestion recorded in the reasoning notes. -/
theorem C7_adaptive_plan {σ : Type} (est : σ → ℚ × ℚ) (threshold : ℚ) (specs : σ)
    (r : ReasoningResult σ) (os : σ) (hos : r.optimized_specs = some os) :
    (threshold ≤ r.confidence.getD 0 →
      (createAdaptivePlan est threshold specs (.ok r)).optimized_specs = os ∧
      (createAdaptivePlan est threshold specs (.ok r)).reasoning_applied = true ∧
      (createAdaptivePlan est threshold specs (.ok r)).confidence =
        r.confidence.getD 0) ∧
    (r.confidence.getD 0 < threshold →
      (createAdaptivePlan est threshold specs (.ok r)).optimized_specs = specs ∧
      (createAdaptivePlan est threshold specs (.ok r)).reasoning_applied = false ∧
      (createAdaptivePlan est threshold specs (.ok r)).confidence = 1 ∧
      (createAdaptivePlan est threshold specs (.ok r)).reasoning_notes =
        .rejectedSuggestion "reasoning confidence below threshold" (r.notes.getD "")) ∧
    ((createAdaptivePlan est threshold specs (.ok r)).reasoning_applied = true ↔
      threshold ≤ r.confidence.getD 0) := by
  by_cases hc : threshold ≤ r.confidence.getD 0
  · refine ⟨fun _ => ?_, fun hlt => absurd hc (not_le.mpr hlt), ?_⟩ <;>
      simp [createAdaptivePlan, hos, hc]
  · refine ⟨fun hge => absurd hge hc, fun _ => ?_, ?_⟩ <;>
      simp [createAdaptivePlan, hos, hc]

/-- Witness for C7: the spec's own scenario — threshold 0.7, reasoning
confidence 0.5 — falls back to the original spec. -/
theorem C7_adaptive_plan_witness :
    (createAdaptivePlan (fun _ => ((0 : ℚ), (1 : ℚ))) (7/10) "orig"
      (.ok ⟨some "opt", some (1/2), some "sug", none, none⟩)).optimized_specs = "orig" ∧
    (createAdaptivePlan (fun _ => ((0 : ℚ), (1 : ℚ))) (7/10) "orig"
      (.ok ⟨some "opt", some (1/2), some "sug", none, none⟩)).reasoning_applied
      = false := by
  have h := C7_adaptive_plan (σ := String) (fun _ => ((0 : ℚ), (1 : ℚ))) (7/10) "orig"
    ⟨some "opt", some (1/2), some "sug", none, none⟩ "opt" rfl
  have hlt : ((⟨some "opt", some (1/2), some "sug", none, none⟩ :
      ReasoningResult String).confidence.getD 0) < 7/10 := by
    show (1 : ℚ)/2 < 7/10
    norm_num
  obtain ⟨a, b, -, -⟩ := h.2.1 hlt
  exact ⟨a, b⟩

lemma runDataSources_cons_disabled (o : Nat → DSOutcome) (i : Nat)
    (d : DataSourceSpec) (rest : List DataSourceSpec) (h : d.enabled = false) :
    runDataSources o i (d :: rest) = runDataSources o (i + 1) rest := by
  simp [runDataSources, h]

lemma runDataSources_cons_vec (o : Nat → DSOutcome) (i : Nat) (d : DataSourceSpec)
    (rest : List DataSourceSpec) (rec : DSRecord) (he : d.enabled = true)
    (hv : d.source_type = .vector_db) (hr : vectorRecord (o i) = some rec) :
    (runDataSources o i (d :: rest)).1 = rec :: (runDataSources o (i + 1) rest).1 := by
  rcases ho : o i with m | _ | _ | rs <;> rw [ho] at hr <;>
    simp [vectorRecord] at hr <;>
    simp [runDataSources, he, hv, DataSourceType.val, ho, ← hr]

/-- C8 counterexample: with data sources [A, B, C] where A is an *enabled*
`conversation_history` source, B a disabled `vector_db` source and C an
enabled `vector_db` source answering one document, the node records only the
C result — the claimed `[A-result, C-result]` (two records) is refuted,
because non-`vector_db` sources fall through the loop with no record. -/
theorem C8_counterexample :
    (queryDataSourcesNode c8Env c8State).data_source_results =
      [.ok "vector_db" ["doc"] 1] ∧
    (queryDataSourcesNode c8Env c8State).data_source_results.length ≠ 2 := by
  refine ⟨rfl, by decide⟩

/-- C8 (amended): for a source list [A, B, C] with B disabled and A, C
enabled `vector_db` sources whose processing raises no exception, the node
stores exactly A's record followed by C's record, in list order. -/
theorem C8_order_preservation (env : Env) (s : WState) (A B C : DataSourceSpec)
    (rA rC : DSRecord) (hspec : s.specs.data_sources = [A, B, C])
    (hA : A.enabled = true) (hAv : A.source_type = .vector_db)
    (hB : B.enabled = false) (hC : C.enabled = true) (hCv : C.source_type = .vector_db)
    (hrA : vectorRecord (env.ds 0) = some rA) (hrC : vectorRecord (env.ds 2) = some rC) :
    (queryDataSourcesNode env s).data_source_results = [rA, rC] := by
  have hres : (queryDataSourcesNode env s).data_source_results =
      (runDataSources env.ds 0 s.specs.data_sources).1 := rfl
  rw [hres, hspec]
  rw [runDataSources_cons_vec env.ds 0 A [B, C] rA hA hAv hrA]
  rw [congrArg Prod.fst (runDataSources_cons_disabled env.ds 1 B [C] hB)]
  rw [runDataSources_cons_vec env.ds 2 C [] rC hC hCv hrC]
  rfl

/-- Witness for C8 at an all-`vector_db` list with B disabled. -/
theorem C8_order_preservation_witness :
    (queryDataSourcesNode c8Env (initialWState ⟨vecSources, []⟩ "hi")).data_source_results
      = [.ok "vector_db" ["doc"] 1, .ok "vector_db" ["doc"] 1] := by
  exact C8_order_preservation c8Env (initialWState ⟨vecSources, []⟩ "hi")
    ⟨.vector_db, true⟩ ⟨.vector_db, false⟩ ⟨.vector_db, true⟩
    (.ok "vector_db" ["doc"] 1) (.ok "vector_db" ["doc"] 1)
    rfl rfl rfl rfl rfl rfl rfl rfl

/-- C9: the rate limiter keeps independent per-user sliding 1-minute and
1-hour windows, prunes stale timestamps on every check, and with
`max_requests_per_minute = 2` three immediate calls for one user yield
allow, allow, deny. -/
theorem C9_rate_limiter (cfg : RateConfig) (st : RateState) (uid : String) (now : ℚ)
    (hen : cfg.enabled = true) :
    (cfg.maxPerMinute = 2 → 2 ≤ cfg.maxPerHour → st uid = ⟨[], []⟩ →
      threeCalls cfg st uid now = (true, true, false)) ∧
    (∀ t, t ∈ ((checkRateLimit cfg st uid now).2 uid).minute → now - 60 < t) ∧
    (∀ t, t ∈ ((checkRateLimit cfg st uid now).2 uid).hour → now - 3600 < t) := by
  have hen' : ¬ (cfg.enabled = false) := by
    rw [hen]
    simp
  refine ⟨?_, ?_, ?_⟩
  · intro h2 hh hempty
    have hc1 : checkRateLimit cfg st uid now =
        (true, fun u => if u = uid then ⟨[now], [now]⟩ else st u) := by
      unfold checkRateLimit
      rw [if_neg hen', hempty]
      simp only [List.filter_nil, List.length_nil, List.nil_append]
      rw [if_neg (by omega : ¬ (cfg.maxPerMinute ≤ 0)),
        if_neg (by omega : ¬ (cfg.maxPerHour ≤ 0))]
    have hself : (fun u => if u = uid then
        (⟨[now], [now]⟩ : RateEntry) else st u) uid = ⟨[now], [now]⟩ := by simp
    have hflt : List.filter (fun t => decide (now - 60 < t)) [now] = [now] := by
      simp
    have hflt2 : List.filter (fun t => decide (now - 3600 < t)) [now] = [now] := by
      simp
    have hc2 : checkRateLimit cfg (fun u => if u = uid then ⟨[now], [now]⟩ else st u)
        uid now = (true, fun u => if u = uid then ⟨[now, now], [now, now]⟩ else
          (fun v => if v = uid then (⟨[now], [now]⟩ : RateEntry) else st v) u) := by
      unfold checkRateLimit
      rw [if_neg hen', hself]
      dsimp only
      rw [hflt, hflt2]
      rw [if_neg (by simp [h2] : ¬ (cfg.maxPerMinute ≤ ([now] : List ℚ).length)),
        if_neg (by simp; omega : ¬ (cfg.maxPerHour ≤ ([now] : List ℚ).length))]
      simp
    have hself2 : (fun u => if u = uid then (⟨[now, now], [now, now]⟩ : RateEntry) else
        (fun v => if v = uid then (⟨[now], [now]⟩ : RateEntry) else st v) u) uid =
          ⟨[now, now], [now, now]⟩ := by simp
    have hflt3 : List.filter (fun t => decide (now - 60 < t)) [now, now] = [now, now] := by
      simp
    have hc3 : (checkRateLimit cfg (fun u => if u = uid then ⟨[now, now], [now, now]⟩ else
        (fun v => if v = uid then (⟨[now], [now]⟩ : RateEntry) else st v) u) uid now).1
          = false := by
      unfold checkRateLimit
      rw [if_neg hen', hself2]
      dsimp only
      rw [hflt3]
      rw [if_pos (by simp [h2] : cfg.maxPerMinute ≤ ([now, now] : List ℚ).length)]
    show ((checkRateLimit cfg st uid now).1, _, _) = (true, true, false)
    rw [hc1]
    show (true, (checkRateLimit cfg (fun u => if u = uid then ⟨[now], [now]⟩ else st u)
      uid now).1, _) = (true, true, false)
    rw [hc2]
    exact congrArg (fun b => (true, true, b)) hc3
  · intro t ht
    unfold checkRateLimit at ht
    rw [if_neg hen'] at ht
    by_cases e1 : cfg.maxPerMinute ≤ ((st uid).minute.filter
        (fun x => decide (now - 60 < x))).length
    · rw [if_pos e1] at ht
      simp at ht
      exact ht.2
    · rw [if_neg e1] at ht
      by_cases e2 : cfg.maxPerHour ≤ ((st uid).hour.filter
          (fun x => decide (now - 3600 < x))).length
      · rw [if_pos e2] at ht
        simp at ht
        exact ht.2
      · rw [if_neg e2] at ht
        simp at ht
        rcases ht with ht | ht
        · exact ht.2
        · rw [ht]; linarith
  · intro t ht
    unfold checkRateLimit at ht
    rw [if_neg hen'] at ht
    by_cases e1 : cfg.maxPerMinute ≤ ((st uid).minute.filter
        (fun x => decide (now - 60 < x))).length
    · rw [if_pos e1] at ht
      simp at ht
      exact ht.2
    · rw [if_neg e1] at ht
      by_cases e2 : cfg.maxPerHour ≤ ((st uid).hour.filter
          (fun x => decide (now - 3600 < x))).length
      · rw [if_pos e2] at ht
        simp at ht
        exact ht.2
      · rw [if_neg e2] at ht
        simp at ht
        rcases ht with ht | ht
        · exact ht.2
        · rw [ht]; linarith

/-- Witness for C9: the boundary scenario at concrete inputs. -/
theorem C9_rate_limiter_witness :
    threeCalls ⟨true, 2, 1000⟩ (fun _ => ⟨[], []⟩) "u" 0 = (true, true, false) := by
  exact (C9_rate_limiter ⟨true, 2, 1000⟩ (fun _ => ⟨[], []⟩) "u" 0 rfl).1 rfl
    (by norm_num) rfl

/-- C10: when the provider answers with well-formed content on the first
attempt but the internal quality-validation call raises, the validation node
sets confidence to 0.5 and `is_validated` to true, so the loop exits after a
single attempt (one CALL_PROVIDER invocation); FINALIZE — because 0.5 < 0.75
— then replaces the content with the first fixed fallback message and
appends an error entry: the model output is never returned to the caller. -/
theorem C10_validator_exception (env : Env) (specs : AgentExecutionSpec)
    (message : String) (r : ProviderResp) (m : String)
    (hp : env.provider 0 = .resp r) (hs : r.success = true)
    (hcne : (r.content = "") = False)
    (hcpre : strStartsWith r.content "Error:" = false)
    (hq : env.quality 0 = .exc m) :
    (executePlan env false specs message).2.validation_attempts = 1 ∧
    (executePlan env false specs message).2.confidence_score = 1/2 ∧
    (executePlan env false specs message).2.is_validated = true ∧
    (executePlan env false specs message).1.content = fallbackMessage0 ∧
    (executePlan env false specs message).1.status = "completed_with_errors" ∧
    "Low confidence response replaced with fallback" ∈
      (executePlan env false specs message).1.errors ∧
    (executePlan env false specs message).2.execution_steps.count "call_provider"
      = 1 := by
  obtain ⟨p1, p2, -, -, -, -, p7, -⟩ :=
    preLoop_keeps env (initialWState specs message)
  have hp0 : env.provider
      (preLoopState env (initialWState specs message)).validation_attempts = .resp r := by
    rw [p1]
    exact hp
  have hq0 : env.quality
      (preLoopState env (initialWState specs message)).validation_attempts = .exc m := by
    rw [p1]
    exact hq
  obtain ⟨i1, i2, i3⟩ :=
    loopIter_of_exc env (preLoopState env (initialWState specs message)) r m hp0 hs hcne hcpre hq0
  obtain ⟨lm, la, lcc, -, -⟩ := loopIter_facts env (preLoopState env (initialWState specs message))
  have hrun : (executePlan env false specs message).2 =
      finalizeNode (loopIter env (preLoopState env (initialWState specs message))).1 := by
    show seqLoop env ((preLoopState env (initialWState specs message)).max_validation_runs + 1)
      (preLoopState env (initialWState specs message)) = _
    simp [seqLoop, i1]
  obtain ⟨f1, f2, f3, -, -⟩ :=
    finalizeNode_keeps (loopIter env (preLoopState env (initialWState specs message))).1
  obtain ⟨k1, -, k3⟩ :=
    finalize_keeps_more (loopIter env (preLoopState env (initialWState specs message))).1
  obtain ⟨l1, l2, l3⟩ :=
    finalize_lowconf (loopIter env (preLoopState env (initialWState specs message))).1
      (by rw [i2]; norm_num)
  refine ⟨?_, ?_, ?_, ?_, ?_, ?_, ?_⟩
  · rw [hrun, f1, la, p1]
    rfl
  · rw [hrun, k1, i2]
  · rw [hrun, k3, i3]
  · show resolveFinalContent (executePlan env false specs message).2 = _
    rw [hrun]
    simp [resolveFinalContent, l1]
  · show (executePlan env false specs message).2.status = _
    rw [hrun, l3]
  · show "Low confidence response replaced with fallback" ∈
      (executePlan env false specs message).2.errors
    rw [hrun, l2]
    exact List.mem_append_right _ (by simp)
  · show ccOf (executePlan env false specs message).2 = 1
    rw [hrun, f3, lcc, p7]
    rfl

/-- Witness for C10 at a concrete oracle bundle. -/
theorem C10_validator_exception_witness :
    (executePlan envQualityExc false emptySpecs "Hi").2.validation_attempts = 1 ∧
    (executePlan envQualityExc false emptySpecs "Hi").1.content = fallbackMessage0 := by
  have h := C10_validator_exception envQualityExc emptySpecs "Hi" goodResp "boom"
    rfl rfl (eq_false (by decide)) (by decide) rfl
  exact ⟨h.1, h.2.2.2.1⟩

end ThinkLife
